import Mathlib

/-!
Shallow embedding of the `raytracing` Rust crate (ray-scene intersection,
material scattering, recursive color integrator, Monte Carlo view factors).

Modelling conventions:
* `f32` is modelled by `ℚ` with exact arithmetic; the `f32` intrinsics
  `sqrt`, `cos` and `sin` are supplied by an oracle record `Env`, so each
  theorem states exactly which properties of the oracle it needs.
* Calls to the process-wide random generator are modelled by an explicit
  stream `R : ℕ → ℚ` together with a counter `k : ℕ` threaded through every
  function that draws randomness (state-passing style).
* The two rejection-sampling `while` loops are modelled with an explicit
  fuel bound `F`; when the fuel runs out the loop result is the current
  candidate (the Rust loop would keep drawing).
* Rust `&mut` out-parameters become explicit inputs returned in the result
  tuple, so "the record was left untouched" is an equality of values.
* `Option::unwrap` on `None` (a Rust panic) is modelled by returning the
  surrounding function's neutral value; every such arm is unreachable in
  the executions the theorems speak about.
-/

namespace Raytracing

/-- Oracle for the `f32` intrinsics used by the crate: `sqrt`, `cos`, `sin`.
Theorems state the algebraic facts they need about these oracles as
hypotheses. -/
structure Env where
  sq : ℚ → ℚ
  cosf : ℚ → ℚ
  sinf : ℚ → ℚ

/-- The exact rational value of `std::f32::consts::PI` (bit pattern `0x40490FDB`). -/
def PI : ℚ := 13176795 / 4194304

/-- The exact rational value of `std::f32::MAX`, namely `(2 - 2⁻²³)·2¹²⁷`. -/
def F32_MAX : ℚ := 2 ^ 128 - 2 ^ 104

/-- `Vec3` from `src/vectors.rs`: a 3-component vector used both as a point
and as an RGB color. -/
structure Vec3 where
  x : ℚ
  y : ℚ
  z : ℚ
deriving DecidableEq

namespace Vec3

/-- `Vec3::zeros`. -/
def zeros : Vec3 := ⟨0, 0, 0⟩

/-- `Vec3::ones`. -/
def ones : Vec3 := ⟨1, 1, 1⟩

/-- Componentwise addition (`impl Add for Vec3`). -/
instance : Add Vec3 := ⟨fun a b => ⟨a.x + b.x, a.y + b.y, a.z + b.z⟩⟩

/-- Componentwise negation (`impl Neg for Vec3`). -/
instance : Neg Vec3 := ⟨fun a => ⟨-a.x, -a.y, -a.z⟩⟩

/-- Subtraction, defined as `self.add(v2.neg())` exactly as in the source. -/
instance : Sub Vec3 := ⟨fun a b => a + (-b)⟩

/-- Componentwise multiplication (`impl Mul for Vec3`). -/
instance : Mul Vec3 := ⟨fun a b => ⟨a.x * b.x, a.y * b.y, a.z * b.z⟩⟩

/-- Scalar multiplication on the right (`impl Mul<f32> for Vec3`). -/
instance : HMul Vec3 ℚ Vec3 := ⟨fun v m => ⟨v.x * m, v.y * m, v.z * m⟩⟩

/-- Scalar multiplication on the left (`impl Mul<Vec3> for f32`). -/
instance : HMul ℚ Vec3 Vec3 := ⟨fun m v => ⟨v.x * m, v.y * m, v.z * m⟩⟩

/-- Scalar division, defined as `self.mul(1e0/d)` exactly as in the source. -/
instance : HDiv Vec3 ℚ Vec3 := ⟨fun v d => v * ((1 : ℚ) / d)⟩

/-- `Vec3Methods::dot`. -/
def dot (a b : Vec3) : ℚ := a.x * b.x + a.y * b.y + a.z * b.z

/-- `Vec3Methods::cross`. -/
def cross (a b : Vec3) : Vec3 :=
  ⟨a.y * b.z - a.z * b.y, a.z * b.x - a.x * b.z, a.x * b.y - a.y * b.x⟩

/-- `Vec3Methods::square_length`, i.e. `self.dot(self)`. -/
def square_length (v : Vec3) : ℚ := v.dot v

/-- `Vec3Methods::length`, i.e. `self.square_length().sqrt()` via the oracle. -/
def length (E : Env) (v : Vec3) : ℚ := E.sq v.square_length

/-- `Vec3Methods::unit_vector`, i.e. division by the length. -/
def unit_vector (E : Env) (v : Vec3) : Vec3 := v / v.length E

/-- `Vec3::random`: three consecutive draws from the random stream. -/
def random (R : ℕ → ℚ) (k : ℕ) : Vec3 × ℕ := (⟨R k, R (k + 1), R (k + 2)⟩, k + 3)

/-- Components of an addition. -/
@[simp] lemma add_def (a b : Vec3) : a + b = ⟨a.x + b.x, a.y + b.y, a.z + b.z⟩ := rfl

/-- Components of a negation. -/
@[simp] lemma neg_def (a : Vec3) : -a = ⟨-a.x, -a.y, -a.z⟩ := rfl

/-- Components of a subtraction. -/
@[simp] lemma sub_def (a b : Vec3) : a - b = ⟨a.x + -b.x, a.y + -b.y, a.z + -b.z⟩ := rfl

/-- Components of a componentwise product. -/
@[simp] lemma mul_def (a b : Vec3) : a * b = ⟨a.x * b.x, a.y * b.y, a.z * b.z⟩ := rfl

/-- Components of a right scalar product. -/
@[simp] lemma smul_right_def (a : Vec3) (m : ℚ) : a * m = ⟨a.x * m, a.y * m, a.z * m⟩ := rfl

/-- Components of a left scalar product. -/
@[simp] lemma smul_left_def (m : ℚ) (a : Vec3) : m * a = ⟨a.x * m, a.y * m, a.z * m⟩ := rfl

/-- Components of a scalar division. -/
@[simp] lemma div_def (a : Vec3) (d : ℚ) :
    a / d = ⟨a.x * (1 / d), a.y * (1 / d), a.z * (1 / d)⟩ := rfl

end Vec3

/-- `BACKGROUND_COLOR` from `src/rays.rs`. -/
def BACKGROUND_COLOR : Vec3 := ⟨1 / 2, 7 / 10, 1⟩

/-- `Ray` from `src/rays.rs`: origin `a` and direction `b`. -/
structure Ray where
  a : Vec3
  b : Vec3
deriving DecidableEq

namespace Ray

/-- `Ray::origin`. -/
def origin (r : Ray) : Vec3 := r.a

/-- `Ray::direction`. -/
def direction (r : Ray) : Vec3 := r.b

/-- `Ray::point_at_parameter`: `origin + direction * t`. -/
def point_at_parameter (r : Ray) (t : ℚ) : Vec3 := r.origin + r.direction * t

end Ray

/-- `LambertianKind` from `src/materials.rs`. -/
structure LambertianKind where
  albedo : Vec3
deriving DecidableEq

/-- `MetalKind` from `src/materials.rs`. -/
structure MetalKind where
  albedo : Vec3
  fuzz : ℚ
deriving DecidableEq

/-- `DielectricKind` from `src/materials.rs`. -/
structure DielectricKind where
  n : ℚ
deriving DecidableEq

/-- `Material` enumerable from `src/materials.rs`. -/
inductive Material where
  | Lambertian (l : LambertianKind)
  | Metal (m : MetalKind)
  | Dielectric (d : DielectricKind)
deriving DecidableEq

/-- `HitRecord` from `src/hittable.rs`. -/
structure HitRecord where
  t : ℚ
  p : Vec3
  normal : Vec3
  material : Material
  hit_elem : ℕ
deriving DecidableEq

/-- `MetalKind::reflect`: `v - 2·dot(n,v)·n`. -/
def MetalKind.reflect (v n : Vec3) : Vec3 := v - (2 : ℚ) * n.dot v * n

/-- `DielectricKind::refract`: vector Snell refraction.  The source function
unconditionally returns `true`; the refracted direction out-parameter is
returned as the second component. -/
def DielectricKind.refract (E : Env) (v n : Vec3) (ni_over_nt : ℚ) : Bool × Vec3 :=
  let uv : Vec3 := v.unit_vector E
  let v_out_perp : Vec3 := ni_over_nt * (n.cross (-(n.cross uv)))
  let v_out_norm : Vec3 := (-(E.sq (1 - ni_over_nt ^ 2 * (n.cross uv).square_length))) * n
  (true, v_out_perp + v_out_norm)

/-- `DielectricKind::schlick`: polynomial Fresnel reflectance approximation. -/
def DielectricKind.schlick (ni_over_nt cosine : ℚ) : ℚ :=
  let r0 : ℚ := ((1 - ni_over_nt) / (1 + ni_over_nt)) ^ 2
  r0 + (1 - r0) * (1 - cosine) ^ 5

/-- The rejection loop of `random_in_unit_sphere`, with explicit fuel:
while the candidate has squared length `≥ 1`, redraw `random()*2 - ones`. -/
def rejectLoop (R : ℕ → ℚ) : ℕ → Vec3 → ℕ → Vec3 × ℕ
  | 0, p, k => (p, k)
  | fuel + 1, p, k =>
    if 1 ≤ p.square_length then
      let (q, k') := Vec3.random R k
      rejectLoop R fuel (q * (2 : ℚ) - Vec3.ones) k'
    else (p, k)

/-- `random_in_unit_sphere` from `src/materials.rs`: rejection sampling
starting from the out-of-sphere candidate `(2,2,2)`. -/
def random_in_unit_sphere (R : ℕ → ℚ) (F : ℕ) (k : ℕ) : Vec3 × ℕ :=
  rejectLoop R F ⟨2, 2, 2⟩ k

/-- `Material::scatter` from `src/materials.rs`.  The `&mut` out-parameters
`attenuation` and `scattered` are passed in and returned (possibly
overwritten) in the result tuple `(bool, attenuation, scattered, k)`. -/
def Material.scatter (E : Env) (R : ℕ → ℚ) (F : ℕ) (m : Material) (ray_in : Ray)
    (hit_rec : HitRecord) (attenuation : Vec3) (scattered : Ray) (k : ℕ) :
    Bool × Vec3 × Ray × ℕ :=
  match m with
  | Material.Lambertian l =>
    let (p, k') := random_in_unit_sphere R F k
    (true, l.albedo, { a := hit_rec.p, b := hit_rec.normal + p }, k')
  | Material.Metal metal =>
    let reflected : Vec3 := MetalKind.reflect (ray_in.direction.unit_vector E) hit_rec.normal
    let (p, k') := random_in_unit_sphere R F k
    let scattered' : Ray := { a := hit_rec.p, b := reflected + p * metal.fuzz }
    (decide (scattered'.direction.dot hit_rec.normal > 0), metal.albedo, scattered', k')
  | Material.Dielectric dielectric =>
    let reflected : Vec3 := MetalKind.reflect ray_in.direction hit_rec.normal
    let (refracted0, k1) := Vec3.random R k
    let attenuation' : Vec3 := ⟨1, 1, 1⟩
    let outward_normal : Vec3 :=
      if ray_in.direction.dot hit_rec.normal > 0 then -hit_rec.normal else hit_rec.normal
    let ni_over_nt : ℚ :=
      if ray_in.direction.dot hit_rec.normal > 0 then dielectric.n else 1 / dielectric.n
    let cosine : ℚ := -(ray_in.direction.unit_vector E).dot outward_normal
    let sine : ℚ := E.sq (1 - cosine ^ 2)
    if ni_over_nt * sine > 1 then
      (true, attenuation', { a := hit_rec.p, b := reflected }, k1)
    else
      let reflect_prob : ℚ := DielectricKind.schlick ni_over_nt cosine
      let refr := DielectricKind.refract E (ray_in.direction.unit_vector E) outward_normal ni_over_nt
      let refracted : Vec3 := if refr.1 then refr.2 else refracted0
      if refr.1 then
        if R k1 < reflect_prob then
          (true, attenuation', { a := hit_rec.p, b := reflected }, k1 + 1)
        else
          (true, attenuation', { a := hit_rec.p, b := refracted }, k1 + 1)
      else
        (false, attenuation', scattered, k1)

/-- `Sphere` from `src/objects/sphere.rs`. -/
structure Sphere where
  center : Vec3
  radius : ℚ
  material : Material
deriving DecidableEq

namespace Sphere

/-- `Sphere::normal` (surface parameterization): longitude `λ = 2πs`,
latitude `φ = π(t - 1/2)`, via the trig oracles. -/
def normal (E : Env) (s : Sphere) (ps pt : ℚ) : Vec3 :=
  let lam : ℚ := 2 * PI * ps
  let phi : ℚ := PI * (pt - 1 / 2)
  ⟨E.cosf lam * E.cosf phi, E.sinf lam * E.cosf phi, E.sinf phi⟩

/-- `Sphere::point`: `center + radius * normal(s,t)`. -/
def point (E : Env) (s : Sphere) (ps pt : ℚ) : Vec3 :=
  s.center + s.radius * s.normal E ps pt

/-- `Sphere::area`: `4πr²`. -/
def area (s : Sphere) : ℚ := 4 * PI * s.radius ^ 2

/-- `Sphere::diff_a`: `r²·cos(φ)·2π²`. -/
def diff_a (E : Env) (s : Sphere) (_ps pt : ℚ) : ℚ :=
  let phi : ℚ := PI * (pt - 1 / 2)
  s.radius ^ 2 * E.cosf phi * 2 * PI ^ 2

/-- `Sphere::hit` from `src/objects/sphere.rs`: quadratic root finding.
The source first accepts `t2` then overwrites with `t1` when admissible;
the net effect (`t1` preferred when admissible) is embedded directly. -/
def hit (E : Env) (s : Sphere) (ray : Ray) (t_min t_max : ℚ) (rec : Option HitRecord) :
    Bool × Option HitRecord :=
  let r : Vec3 := ray.origin - s.center
  let a : ℚ := ray.direction.square_length
  let b : ℚ := 2 * r.dot ray.direction
  let c : ℚ := r.square_length - s.radius ^ 2
  let discriminant : ℚ := b ^ 2 - 4 * a * c
  if discriminant > 0 then
    let t1 : ℚ := (-b - E.sq discriminant) / (2 * a)
    let t2 : ℚ := (-b + E.sq discriminant) / (2 * a)
    let t_op : Option ℚ :=
      if t_min < t1 ∧ t1 < t_max then some t1
      else if t_min < t2 ∧ t2 < t_max then some t2
      else none
    match t_op with
    | none => (false, rec)
    | some t =>
      (true, some { t := t, p := ray.point_at_parameter t,
                    normal := (ray.point_at_parameter t - s.center) / s.radius,
                    material := s.material, hit_elem := 0 })
  else (false, rec)

end Sphere

/-- `Square` from `src/objects/square.rs`. -/
structure Square where
  center : Vec3
  length : ℚ
  material : Material
  u : Vec3
  v : Vec3
  w : Vec3
deriving DecidableEq

/-- Determinant of the 3×3 matrix with rows `r1, r2, r3` (scalar triple
product). -/
def det3 (r1 r2 r3 : Vec3) : ℚ := r1.dot (r2.cross r3)

/-- Exact solution of the linear system whose matrix has rows `r1, r2, r3`
and right-hand side `(b1, b2, b3)`, by Cramer's rule.  This models the
source's `lu().solve()` / `pseudo_inverse()` calls, which on the guarded
(well-conditioned) inputs compute the exact inverse up to `f32` rounding.
When the determinant is zero every component divides by zero (the Rust
code would panic or produce non-finite values); no theorem relies on that
case. -/
def solveRows (r1 r2 r3 : Vec3) (b1 b2 b3 : ℚ) : Vec3 :=
  let d : ℚ := det3 r1 r2 r3
  ((b1 * (r2.cross r3) + b2 * (r3.cross r1) + b3 * (r1.cross r2)) : Vec3) / d

/-- The seed loop of `Square::hit`: redraw `n_pp` while
`|n_pp · ray.direction| > 0.8`, with explicit fuel. -/
def seedLoop (R : ℕ → ℚ) (dir : Vec3) : ℕ → Vec3 → ℕ → Vec3 × ℕ
  | 0, p, k => (p, k)
  | fuel + 1, p, k =>
    if |p.dot dir| > 4 / 5 then
      let (q, k') := Vec3.random R k
      seedLoop R dir fuel q k'
    else (p, k)

namespace Square

/-- `Square::point`: `center + length·(s - 1/2)·u + length·(t - 1/2)·v`. -/
def point (sq : Square) (ps pt : ℚ) : Vec3 :=
  sq.center + (sq.length * (ps - 1 / 2)) * sq.u + (sq.length * (pt - 1 / 2)) * sq.v

/-- `Square::normal`: the basis vector `w`, independent of `(s,t)`. -/
def normal (sq : Square) (_ps _pt : ℚ) : Vec3 := sq.w

/-- `Square::area`: `length²`. -/
def area (sq : Square) : ℚ := sq.length ^ 2

/-- `Square::diff_a`: equal to the area (uniform density). -/
def diff_a (sq : Square) (_ps _pt : ℚ) : ℚ := sq.area

/-- `Square::hit` from `src/objects/square.rs`: plane-ray intersection via a
3×3 linear solve against two random directions perpendicular to the ray,
then in-plane bounds checks. -/
def hit (E : Env) (R : ℕ → ℚ) (F : ℕ) (sq : Square) (ray : Ray) (t_min t_max : ℚ)
    (rec : Option HitRecord) (k : ℕ) : Bool × Option HitRecord × ℕ :=
  let (n_pp0, k1) := Vec3.random R k
  let n : Vec3 := sq.normal 0 0
  if |n.dot ray.direction| < 1 / 1000 then (false, rec, k1)
  else
    let (n_pp, k2) := seedLoop R ray.direction F n_pp0 k1
    let n_1 : Vec3 := (n_pp.cross ray.direction).unit_vector E
    let n_2 : Vec3 := (ray.direction.cross n_1).unit_vector E
    let p : Vec3 := solveRows n n_1 n_2 (n.dot sq.center) (n_1.dot ray.origin) (n_2.dot ray.origin)
    let t : ℚ := (p - ray.origin).dot ray.direction / ray.direction.square_length
    if t < t_min ∨ t > t_max then (false, rec, k2)
    else if |(p - sq.center).dot sq.u| > sq.length / 2 then (false, rec, k2)
    else if |(p - sq.center).dot sq.v| > sq.length / 2 then (false, rec, k2)
    else
      (true, some { t := t, p := p,
                    normal := (-n * n.dot ray.direction) / |n.dot ray.direction|,
                    material := sq.material, hit_elem := 0 }, k2)

end Square

/-- Modelled from the spec: `Rectangle` (file `src/objects/rectangle.rs` is
referenced by `src/objects/mod.rs` but absent from the sources).  Per
§3/§4.4 it is a planar patch like `Square` with independent extents:
bounds-checks against `±width/2` and `±height/2`, `area = width·height`,
`diff_a = area`, normal `w`, and the same random-perpendicular linear-solve
intersection as `Square`. -/
structure Rectangle where
  center : Vec3
  width : ℚ
  height : ℚ
  material : Material
  u : Vec3
  v : Vec3
  w : Vec3
deriving DecidableEq

namespace Rectangle

/-- Modelled from the spec: rectangle surface point with extents
`width` along `u` and `height` along `v`. -/
def point (r : Rectangle) (ps pt : ℚ) : Vec3 :=
  r.center + (r.width * (ps - 1 / 2)) * r.u + (r.height * (pt - 1 / 2)) * r.v

/-- Modelled from the spec: rectangle normal is the basis vector `w`. -/
def normal (r : Rectangle) (_ps _pt : ℚ) : Vec3 := r.w

/-- Modelled from the spec: `area = width·height`. -/
def area (r : Rectangle) : ℚ := r.width * r.height

/-- Modelled from the spec: uniform differential area equal to the area. -/
def diff_a (r : Rectangle) (_ps _pt : ℚ) : ℚ := r.area

/-- Modelled from the spec: rectangle intersection, identical to
`Square::hit` except for the independent `±width/2` / `±height/2` bounds. -/
def hit (E : Env) (R : ℕ → ℚ) (F : ℕ) (rc : Rectangle) (ray : Ray) (t_min t_max : ℚ)
    (rec : Option HitRecord) (k : ℕ) : Bool × Option HitRecord × ℕ :=
  let (n_pp0, k1) := Vec3.random R k
  let n : Vec3 := rc.w
  if |n.dot ray.direction| < 1 / 1000 then (false, rec, k1)
  else
    let (n_pp, k2) := seedLoop R ray.direction F n_pp0 k1
    let n_1 : Vec3 := (n_pp.cross ray.direction).unit_vector E
    let n_2 : Vec3 := (ray.direction.cross n_1).unit_vector E
    let p : Vec3 := solveRows n n_1 n_2 (n.dot rc.center) (n_1.dot ray.origin) (n_2.dot ray.origin)
    let t : ℚ := (p - ray.origin).dot ray.direction / ray.direction.square_length
    if t < t_min ∨ t > t_max then (false, rec, k2)
    else if |(p - rc.center).dot rc.u| > rc.width / 2 then (false, rec, k2)
    else if |(p - rc.center).dot rc.v| > rc.height / 2 then (false, rec, k2)
    else
      (true, some { t := t, p := p,
                    normal := (-n * n.dot ray.direction) / |n.dot ray.direction|,
                    material := rc.material, hit_elem := 0 }, k2)

end Rectangle

/-- `Cube` from `src/objects/cube.rs`. -/
structure Cube where
  center : Vec3
  length : ℚ
  material : Material
  u : Vec3
  v : Vec3
  w : Vec3
deriving DecidableEq

namespace Cube

/-- The `(ei, ej, ek)` basis triple chosen by `Cube::hit` for face axis
`i ∈ {0,1,2}` (before the sign is applied to `ei`). -/
def faceBasis (c : Cube) : ℕ → Vec3 × Vec3 × Vec3
  | 0 => (c.u, c.v, c.w)
  | 1 => (c.v, c.w, c.u)
  | _ => (c.w, c.u, c.v)

/-- One face test of `Cube::hit`: for axis `i` and sign `si`, solve the
3×3 column system `(ej | ek | -dir) · x = origin - center - ei·len/2` and
accept when the in-plane coordinates are inside the face and the distance
improves on the current closest one. -/
def faceStep (c : Cube) (ray : Ray) (t_min : ℚ) (isi : ℕ × ℚ)
    (st : Bool × ℚ × Option HitRecord) : Bool × ℚ × Option HitRecord :=
  let (i, si) := isi
  let (do_hit, t_closest, rec) := st
  let (e0, ej, ek) := c.faceBasis i
  let ei : Vec3 := e0 * si
  let minus_b : Vec3 := -ray.direction
  let det : ℚ := ej.dot (ek.cross minus_b)
  if |det| > 1 / 10000 then
    let kv : Vec3 := ray.origin - c.center - ei * (c.length / 2)
    let x0 : ℚ := kv.dot (ek.cross minus_b) / det
    let x1 : ℚ := kv.dot (minus_b.cross ej) / det
    let x2 : ℚ := kv.dot (ej.cross ek) / det
    if |x0| < c.length / 2 ∧ |x1| < c.length / 2 ∧ (t_min < x2 ∧ x2 < t_closest) then
      (true, x2, some { t := x2, p := ray.point_at_parameter x2, normal := ei,
                        material := c.material, hit_elem := 0 })
    else (do_hit, t_closest, rec)
  else (do_hit, t_closest, rec)

/-- The six `(axis, sign)` pairs of the face loop, in source iteration
order (`for i in 0..3 { for si in [-1, 1] }`). -/
def faceList : List (ℕ × ℚ) := [(0, -1), (0, 1), (1, -1), (1, 1), (2, -1), (2, 1)]

/-- `Cube::hit` from `src/objects/cube.rs`: a bounding-sphere pre-test that
writes into the caller's record, followed by six face-plane linear solves.
Note that the pre-test record survives even when the face loop accepts
nothing and `false` is returned. -/
def hit (E : Env) (c : Cube) (ray : Ray) (t_min t_max : ℚ) (rec : Option HitRecord) :
    Bool × Option HitRecord :=
  let sphere : Sphere := ⟨c.center, c.length * E.sq 3 / 2, c.material⟩
  let (sb, rec1) := sphere.hit E ray t_min t_max rec
  if sb then
    let (do_hit, _, rec2) :=
      faceList.foldl (fun st isi => faceStep c ray t_min isi st) (false, t_max, rec1)
    (do_hit, rec2)
  else (false, rec1)

end Cube

/-- `Form` enumerable from `src/objects/mod.rs`. -/
inductive Form where
  | Sphere (s : Sphere)
  | Cube (c : Cube)
  | Square (sq : Square)
  | Rectangle (r : Rectangle)
deriving DecidableEq

namespace Form

/-- `ObjectGetters::get_material` dispatch for `Form` (also `Form::material`). -/
def material : Form → Material
  | Sphere s => s.material
  | Cube c => c.material
  | Square sq => sq.material
  | Rectangle r => r.material

/-- `SurfaceFunctions::point` dispatch for `Form`; a cube yields the zero
vector. -/
def point (E : Env) : Form → ℚ → ℚ → Vec3
  | Sphere s => fun ps pt => s.point E ps pt
  | Cube _ => fun _ _ => Vec3.zeros
  | Square sq => fun ps pt => sq.point ps pt
  | Rectangle r => fun ps pt => r.point ps pt

/-- `SurfaceFunctions::normal` dispatch for `Form`; a cube yields the zero
vector. -/
def normal (E : Env) : Form → ℚ → ℚ → Vec3
  | Sphere s => fun ps pt => s.normal E ps pt
  | Cube _ => fun _ _ => Vec3.zeros
  | Square sq => fun ps pt => sq.normal ps pt
  | Rectangle r => fun ps pt => r.normal ps pt

/-- `SurfaceFunctions::area` dispatch for `Form`; a cube yields `0`. -/
def area : Form → ℚ
  | Sphere s => s.area
  | Cube _ => 0
  | Square sq => sq.area
  | Rectangle r => r.area

/-- `SurfaceFunctions::diff_a` dispatch for `Form`; a cube yields `0`. -/
def diff_a (E : Env) : Form → ℚ → ℚ → ℚ
  | Sphere s => fun ps pt => s.diff_a E ps pt
  | Cube _ => fun _ _ => 0
  | Square sq => fun ps pt => sq.diff_a ps pt
  | Rectangle r => fun ps pt => r.diff_a ps pt

/-- `Hittable::hit` dispatch for `Form`.  The sphere and cube arms draw no
randomness, so they return the counter unchanged. -/
def hit (E : Env) (R : ℕ → ℚ) (F : ℕ) : Form → Ray → ℚ → ℚ → Option HitRecord → ℕ →
    Bool × Option HitRecord × ℕ
  | Sphere s => fun ray t_min t_max rec k =>
      let (b, rec') := s.hit E ray t_min t_max rec
      (b, rec', k)
  | Cube c => fun ray t_min t_max rec k =>
      let (b, rec') := c.hit E ray t_min t_max rec
      (b, rec', k)
  | Square sq => fun ray t_min t_max rec k => sq.hit E R F ray t_min t_max rec k
  | Rectangle r => fun ray t_min t_max rec k => r.hit E R F ray t_min t_max rec k

end Form

/-- `HittableList` from `src/objects/mod.rs`. -/
structure HittableList where
  forms : List Form

/-- The linear scan of `HittableList::hit`: state is the separate
`temp_rec`, the `hit_any` flag, the narrowing `t_closest` bound, the
caller's record `rec` and the random counter; `idx` is the enumeration
index. -/
def hitScan (E : Env) (R : ℕ → ℚ) (F : ℕ) (ray : Ray) (t_min : ℚ) :
    List Form → ℕ → Option HitRecord → Bool → ℚ → Option HitRecord → ℕ →
    Bool × Option HitRecord × ℕ
  | [], _, _, hit_any, _, rec, k => (hit_any, rec, k)
  | f :: fs, idx, temp_rec, hit_any, t_closest, rec, k =>
    let (b, tr, k') := f.hit E R F ray t_min t_closest temp_rec k
    if b then
      match tr with
      | some rr =>
        hitScan E R F ray t_min fs (idx + 1) (some rr) true rr.t
          (some { t := rr.t, p := rr.p, normal := rr.normal,
                  material := f.material, hit_elem := idx }) k'
      | none =>
        -- a `true` report with an empty record would panic at `unwrap()`
        -- in the source; no form produces it
        hitScan E R F ray t_min fs (idx + 1) tr true t_closest rec k'
    else
      hitScan E R F ray t_min fs (idx + 1) tr hit_any t_closest rec k'

/-- `HittableList::hit` from `src/objects/mod.rs`: linear scan over the
forms, narrowing `t_closest` to each accepted hit and resolving the
material and index from the owning form. -/
def HittableList.hit (E : Env) (R : ℕ → ℚ) (F : ℕ) (w : HittableList) (ray : Ray)
    (t_min t_max : ℚ) (rec : Option HitRecord) (k : ℕ) : Bool × Option HitRecord × ℕ :=
  hitScan E R F ray t_min w.forms 0 none false t_max rec k

/-- `Ray::color` from `src/rays.rs`: recursive color integrator.  Returns
the color together with the advanced random counter.  The recursion is on
the gap `max_depth - depth`, which shrinks because the recursive call only
happens when `depth < max_depth` and passes `depth + 1`. -/
def Ray.color (E : Env) (R : ℕ → ℚ) (F : ℕ) (ray : Ray) (world : HittableList)
    (depth max_depth : ℕ) (k : ℕ) : Vec3 × ℕ :=
  let (hb, rec, k1) := world.hit E R F ray (1 / 1000) F32_MAX none k
  if hb then
    match rec with
    | some hit_rec =>
      let (do_scatter, attn, scattered, k2) :=
        hit_rec.material.scatter E R F ray hit_rec Vec3.zeros ⟨Vec3.zeros, Vec3.zeros⟩ k1
      if h : depth < max_depth ∧ do_scatter then
        let (rc, k3) := Ray.color E R F scattered world (depth + 1) max_depth k2
        (rc * attn, k3)
      else (Vec3.zeros, k2)
    | none =>
      -- `rec.unwrap()` on `None` would panic in the source; `HittableList::hit`
      -- always writes `Some` when it reports `true`
      (Vec3.zeros, k1)
  else
    let unit_direction : Vec3 := ray.direction.unit_vector E
    let t : ℚ := (1 / 2) * (unit_direction.y + 1)
    (Vec3.ones * (1 - t) + BACKGROUND_COLOR * t, k1)
termination_by max_depth - depth
decreasing_by omega

/-- Fuel-indexed variant of `Ray::color`, recursing on an explicit fuel:
used to state that the source recursion never needs more than
`max_depth - depth` nested calls. -/
def Ray.colorFuel (E : Env) (R : ℕ → ℚ) (F : ℕ) : ℕ → Ray → HittableList → ℕ → ℕ → ℕ →
    Vec3 × ℕ
  | 0, _, _, _, _, k => (Vec3.zeros, k)
  | fuel + 1, ray, world, depth, max_depth, k =>
    let (hb, rec, k1) := world.hit E R F ray (1 / 1000) F32_MAX none k
    if hb then
      match rec with
      | some hit_rec =>
        let (do_scatter, attn, scattered, k2) :=
          hit_rec.material.scatter E R F ray hit_rec Vec3.zeros ⟨Vec3.zeros, Vec3.zeros⟩ k1
        if depth < max_depth ∧ do_scatter then
          let (rc, k3) := Ray.colorFuel E R F fuel scattered world (depth + 1) max_depth k2
          (rc * attn, k3)
        else (Vec3.zeros, k2)
      | none => (Vec3.zeros, k1)
    else
      let unit_direction : Vec3 := ray.direction.unit_vector E
      let t : ℚ := (1 / 2) * (unit_direction.y + 1)
      (Vec3.ones * (1 - t) + BACKGROUND_COLOR * t, k1)

/-- `Vfs` from `src/radiation.rs`: the (strictly upper triangular) view
factor rows. -/
structure Vfs where
  vfs : List (List ℚ)
deriving DecidableEq

/-- A default form standing for the panic of `forms.get(idx).unwrap()` on
an out-of-range index; the view-factor theorems assume in-range indices. -/
def defaultForm : Form := Form.Sphere ⟨Vec3.zeros, 0, Material.Lambertian ⟨Vec3.zeros⟩⟩

/-- One Monte Carlo sample of `ViewFactors::view_factor` (the body of the
`for _ in 0..n` loop): state is the accumulator `temp`, the persistent
`hit_rec` buffer and the random counter. -/
def vfStep (E : Env) (R : ℕ → ℚ) (F : ℕ) (world : HittableList)
    (form_1 form_2 : Form) (form_2_idx : ℕ) (st : ℚ × Option HitRecord × ℕ) :
    ℚ × Option HitRecord × ℕ :=
  let (temp, hit_rec, k) := st
  let s1 : ℚ := R k
  let t1 : ℚ := R (k + 1)
  let s2 : ℚ := R (k + 2)
  let t2 : ℚ := R (k + 3)
  let p1 : Vec3 := form_1.point E s1 t1
  let n1 : Vec3 := form_1.normal E s1 t1
  let p2 : Vec3 := form_2.point E s2 t2
  let n2 : Vec3 := form_2.normal E s2 t2
  let r12 : Vec3 := p2 - p1
  let l : ℚ := r12.length E
  let cos_beta1 : ℚ := r12.dot n1 / l
  let cos_beta2 : ℚ := (-r12).dot n2 / l
  let ray : Ray := ⟨p1, r12.unit_vector E⟩
  let (hb, hit_rec', k') := world.hit E R F ray (1 / 100000000) l hit_rec (k + 4)
  let cos_beta2' : ℚ :=
    if hb then
      match hit_rec' with
      | some r => if r.hit_elem = form_2_idx then cos_beta2 else 0
      | none => 0
    else cos_beta2
  let cos_beta1' : ℚ := if cos_beta1 < 0 ∨ cos_beta2' < 0 then 0 else cos_beta1
  let da1 : ℚ := form_1.diff_a E s1 t1
  let da2 : ℚ := form_2.diff_a E s2 t2
  (temp + cos_beta1' * cos_beta2' / l ^ 2 * da1 * da2, hit_rec', k')

/-- `ViewFactors::view_factor` from `src/radiation.rs`: `n` Monte Carlo
samples accumulated and normalized by `π · area(form_1) · n`. -/
def view_factor (E : Env) (R : ℕ → ℚ) (F : ℕ) (world : HittableList)
    (n form_1_idx form_2_idx : ℕ) (k : ℕ) : ℚ × ℕ :=
  let form_1 : Form := (world.forms.get? form_1_idx).getD defaultForm
  let form_2 : Form := (world.forms.get? form_2_idx).getD defaultForm
  let final := (vfStep E R F world form_1 form_2 form_2_idx)^[n] (0, none, k)
  (final.1 / PI / form_1.area / (n : ℚ), final.2.2)

/-- The inner `for j in (i+1)..n_objs` loop of `ViewFactors::view_factors`,
threading the random counter. -/
def vfRow (E : Env) (R : ℕ → ℚ) (F : ℕ) (world : HittableList) (n i : ℕ) :
    List ℕ → ℕ → List ℚ × ℕ
  | [], k => ([], k)
  | j :: js, k =>
    let (v, k') := view_factor E R F world n i j k
    let (vs, k'') := vfRow E R F world n i js k'
    (v :: vs, k'')

/-- The outer `for i in 0..n_objs` loop of `ViewFactors::view_factors`. -/
def vfRows (E : Env) (R : ℕ → ℚ) (F : ℕ) (world : HittableList) (n n_objs : ℕ) :
    List ℕ → ℕ → List (List ℚ) × ℕ
  | [], k => ([], k)
  | i :: is, k =>
    let (row, k') := vfRow E R F world n i (List.range' (i + 1) (n_objs - (i + 1))) k
    let (rows, k'') := vfRows E R F world n n_objs is k'
    (row :: rows, k'')

/-- `ViewFactors::view_factors` from `src/radiation.rs`: one row per
primitive `i`, holding `view_factor(n, i, j)` for every `j` in
`(i+1)..n_objs`. -/
def view_factors (E : Env) (R : ℕ → ℚ) (F : ℕ) (world : HittableList) (n : ℕ) (k : ℕ) :
    Vfs × ℕ :=
  let n_objs : ℕ := world.forms.length
  let (rows, k') := vfRows E R F world n n_objs (List.range n_objs) k
  (⟨rows⟩, k')

/-! Concrete instances used by the witnesses: a table-driven square-root
oracle, a constant random stream, a unit sphere at the origin, and rays
hitting or missing it. -/

/-- A square-root oracle exact on the inputs the witnesses produce. -/
def sqTable : ℚ → ℚ := fun x => if x = 4 then 2 else if x = 1 then 1 else 0

/-- Witness oracle environment. -/
def E0 : Env := ⟨sqTable, fun _ => 0, fun _ => 0⟩

/-- Witness random stream: constantly `1/2` (so a fresh `random()*2 - ones`
draw is the zero vector, inside the unit sphere). -/
def R0 : ℕ → ℚ := fun _ => 1 / 2

/-- Witness unit sphere at the origin with a Lambertian material. -/
def sphere0 : Sphere := ⟨Vec3.zeros, 1, Material.Lambertian ⟨⟨1 / 10, 2 / 10, 3 / 10⟩⟩⟩

/-- Witness ray from `(3,0,0)` toward the origin; it meets `sphere0` at
parameters `2` and `4`. -/
def ray0 : Ray := ⟨⟨3, 0, 0⟩, ⟨-1, 0, 0⟩⟩

/-- Witness ray from `(3,0,0)` along `z`; it misses `sphere0`
(discriminant `-32`). -/
def rayMiss : Ray := ⟨⟨3, 0, 0⟩, ⟨0, 0, 1⟩⟩

/-- Witness scene containing just `sphere0`. -/
def world1 : HittableList := ⟨[Form.Sphere sphere0]⟩

/-- C6.  `Material::scatter` on a `Dielectric` always reports a scattered
ray, for every incoming ray, hit record, out-parameter contents, oracle,
random stream and fuel; moreover `DielectricKind::refract`, its only
fallible-looking step, unconditionally reports success, so the
no-refraction failure branch of the dielectric arm is never taken. -/
theorem c6_dielectric_always_scatters :
    (∀ (E : Env) (R : ℕ → ℚ) (F : ℕ) (d : DielectricKind) (ray_in : Ray)
      (hr : HitRecord) (attn : Vec3) (sc : Ray) (k : ℕ),
      ((Material.Dielectric d).scatter E R F ray_in hr attn sc k).1 = true)
    ∧ (∀ (E : Env) (v n : Vec3) (ni_over_nt : ℚ),
      (DielectricKind.refract E v n ni_over_nt).1 = true) := by
  constructor
  · intro E R F d ray_in hr attn sc k
    simp only [Material.scatter, DielectricKind.refract]
    split_ifs <;> rfl
  · intro E v n ni_over_nt
    rfl

/-- C7.  `Material::scatter` on a `Metal` reports success exactly when the
scattered direction, namely the mirror reflection of the unit incoming
direction about the hit normal perturbed by `fuzz` times the
unit-sphere sample, has positive dot product with the hit normal. -/
theorem c7_metal_scatter_iff (E : Env) (R : ℕ → ℚ) (F : ℕ) (m : MetalKind)
    (ray_in : Ray) (hr : HitRecord) (attn : Vec3) (sc : Ray) (k : ℕ) :
    ((Material.Metal m).scatter E R F ray_in hr attn sc k).2.2.1.b
        = MetalKind.reflect (ray_in.direction.unit_vector E) hr.normal
          + (random_in_unit_sphere R F k).1 * m.fuzz
    ∧ (((Material.Metal m).scatter E R F ray_in hr attn sc k).1 = true
        ↔ ((Material.Metal m).scatter E R F ray_in hr attn sc k).2.2.1.b.dot hr.normal > 0) := by
  refine ⟨rfl, ?_⟩
  simp only [Material.scatter]
  exact decide_eq_true_iff

/-- C10.  Even when the `Metal` arm of `Material::scatter` reports
absorption, it has already overwritten both out-parameters: the
attenuation buffer holds the metal's albedo and the scattered ray holds
the hit point and the fuzzed reflection, regardless of what the caller
had stored there. -/
theorem c10_metal_absorption_writes_outputs (E : Env) (R : ℕ → ℚ) (F : ℕ)
    (m : MetalKind) (ray_in : Ray) (hr : HitRecord) (attn : Vec3) (sc : Ray) (k : ℕ)
    (habs : ((Material.Metal m).scatter E R F ray_in hr attn sc k).1 = false) :
    ((Material.Metal m).scatter E R F ray_in hr attn sc k).2.1 = m.albedo
    ∧ ((Material.Metal m).scatter E R F ray_in hr attn sc k).2.2.1.a = hr.p
    ∧ ((Material.Metal m).scatter E R F ray_in hr attn sc k).2.2.1.b
        = MetalKind.reflect (ray_in.direction.unit_vector E) hr.normal
          + (random_in_unit_sphere R F k).1 * m.fuzz := by
  exact ⟨rfl, rfl, rfl⟩

/-- Witness for C10: a head-on ray against a fuzzless metal surface is
absorbed, yet the caller's out-parameter buffers (filled with `9`s) have
been replaced by the albedo and the reflected ray. -/
theorem c10_witness :
    ((Material.Metal ⟨⟨1 / 10, 2 / 10, 3 / 10⟩, 0⟩).scatter E0 R0 2 ⟨⟨5, 5, 5⟩, ⟨1, 0, 0⟩⟩
        ⟨1, ⟨4, 4, 4⟩, ⟨1, 0, 0⟩, Material.Metal ⟨⟨1 / 10, 2 / 10, 3 / 10⟩, 0⟩, 0⟩
        ⟨9, 9, 9⟩ ⟨⟨9, 9, 9⟩, ⟨9, 9, 9⟩⟩ 0).2.1 = ⟨1 / 10, 2 / 10, 3 / 10⟩
    ∧ ((Material.Metal ⟨⟨1 / 10, 2 / 10, 3 / 10⟩, 0⟩).scatter E0 R0 2 ⟨⟨5, 5, 5⟩, ⟨1, 0, 0⟩⟩
        ⟨1, ⟨4, 4, 4⟩, ⟨1, 0, 0⟩, Material.Metal ⟨⟨1 / 10, 2 / 10, 3 / 10⟩, 0⟩, 0⟩
        ⟨9, 9, 9⟩ ⟨⟨9, 9, 9⟩, ⟨9, 9, 9⟩⟩ 0).2.2.1.a = ⟨4, 4, 4⟩
    ∧ ((Material.Metal ⟨⟨1 / 10, 2 / 10, 3 / 10⟩, 0⟩).scatter E0 R0 2 ⟨⟨5, 5, 5⟩, ⟨1, 0, 0⟩⟩
        ⟨1, ⟨4, 4, 4⟩, ⟨1, 0, 0⟩, Material.Metal ⟨⟨1 / 10, 2 / 10, 3 / 10⟩, 0⟩, 0⟩
        ⟨9, 9, 9⟩ ⟨⟨9, 9, 9⟩, ⟨9, 9, 9⟩⟩ 0).2.2.1.b
        = MetalKind.reflect ((⟨⟨5, 5, 5⟩, ⟨1, 0, 0⟩⟩ : Ray).direction.unit_vector E0)
            (⟨1, 0, 0⟩ : Vec3)
          + (random_in_unit_sphere R0 2 0).1 * (0 : ℚ) :=
  c10_metal_absorption_writes_outputs E0 R0 2 ⟨⟨1 / 10, 2 / 10, 3 / 10⟩, 0⟩
    ⟨⟨5, 5, 5⟩, ⟨1, 0, 0⟩⟩ ⟨1, ⟨4, 4, 4⟩, ⟨1, 0, 0⟩, Material.Metal ⟨⟨1 / 10, 2 / 10, 3 / 10⟩, 0⟩, 0⟩
    ⟨9, 9, 9⟩ ⟨⟨9, 9, 9⟩, ⟨9, 9, 9⟩⟩ 0 (by
      norm_num [Material.scatter, MetalKind.reflect, random_in_unit_sphere, rejectLoop,
        Vec3.random, Vec3.unit_vector, Vec3.length, Vec3.square_length, Vec3.dot,
        Vec3.ones, Ray.direction, E0, R0, sqTable])

/-- Quadratic coefficient `a` of `Sphere::hit`: `|direction|²`. -/
def sphereA (ray : Ray) : ℚ := ray.direction.square_length

/-- Quadratic coefficient `b` of `Sphere::hit`. -/
def sphereB (s : Sphere) (ray : Ray) : ℚ := 2 * (ray.origin - s.center).dot ray.direction

/-- Quadratic coefficient `c` of `Sphere::hit`. -/
def sphereC (s : Sphere) (ray : Ray) : ℚ :=
  (ray.origin - s.center).square_length - s.radius ^ 2

/-- Discriminant of the `Sphere::hit` quadratic. -/
def sphereDisc (s : Sphere) (ray : Ray) : ℚ :=
  sphereB s ray ^ 2 - 4 * sphereA ray * sphereC s ray

/-- Smaller quadratic root of `Sphere::hit` (via the square-root oracle). -/
def sphereT1 (E : Env) (s : Sphere) (ray : Ray) : ℚ :=
  (-sphereB s ray - E.sq (sphereDisc s ray)) / (2 * sphereA ray)

/-- Larger quadratic root of `Sphere::hit` (via the square-root oracle). -/
def sphereT2 (E : Env) (s : Sphere) (ray : Ray) : ℚ :=
  (-sphereB s ray + E.sq (sphereDisc s ray)) / (2 * sphereA ray)

/-- Closed-form unfolding of `Sphere::hit` in terms of the quadratic data:
the smaller admissible root is preferred, exactly as the source's
"accept `t2`, then overwrite with `t1`" evaluation. -/
lemma sphere_hit_eq (E : Env) (s : Sphere) (ray : Ray) (t_min t_max : ℚ)
    (rec : Option HitRecord) :
    s.hit E ray t_min t_max rec =
      if 0 < sphereDisc s ray then
        if t_min < sphereT1 E s ray ∧ sphereT1 E s ray < t_max then
          (true, some ⟨sphereT1 E s ray, ray.point_at_parameter (sphereT1 E s ray),
            (ray.point_at_parameter (sphereT1 E s ray) - s.center) / s.radius,
            s.material, 0⟩)
        else if t_min < sphereT2 E s ray ∧ sphereT2 E s ray < t_max then
          (true, some ⟨sphereT2 E s ray, ray.point_at_parameter (sphereT2 E s ray),
            (ray.point_at_parameter (sphereT2 E s ray) - s.center) / s.radius,
            s.material, 0⟩)
        else (false, rec)
      else (false, rec) := by
  simp only [Sphere.hit, sphereT1, sphereT2, sphereDisc, sphereA, sphereB, sphereC]
  split_ifs <;> rfl

/-- C5.  `Sphere::hit`: a non-positive discriminant yields no hit and an
untouched record; when the discriminant is positive (for a genuine
quadratic, `a > 0`, with an exact square root of the discriminant) and at
least one of the roots `t1 < t2` is admissible, the hit reports the
nearest admissible root, the hit point lies at `ray.at(t)`, the normal is
`(hit_point - center) / radius`, and that normal is a unit vector
whenever the hit point lies on the sphere (for a nonzero radius). -/
theorem c5_sphere_hit_nearest_root (E : Env) (s : Sphere) (ray : Ray)
    (t_min t_max : ℚ) (rec : Option HitRecord) :
    (sphereDisc s ray ≤ 0 → s.hit E ray t_min t_max rec = (false, rec))
    ∧ (0 < sphereA ray → 0 < sphereDisc s ray →
       E.sq (sphereDisc s ray) ^ 2 = sphereDisc s ray → 0 ≤ E.sq (sphereDisc s ray) →
       ((t_min < sphereT1 E s ray ∧ sphereT1 E s ray < t_max) ∨
        (t_min < sphereT2 E s ray ∧ sphereT2 E s ray < t_max)) →
       sphereT1 E s ray < sphereT2 E s ray ∧
       ∃ r : HitRecord, s.hit E ray t_min t_max rec = (true, some r) ∧
         (r.t = sphereT1 E s ray ∨ r.t = sphereT2 E s ray) ∧
         t_min < r.t ∧ r.t < t_max ∧
         (t_min < sphereT1 E s ray ∧ sphereT1 E s ray < t_max → r.t ≤ sphereT1 E s ray) ∧
         (t_min < sphereT2 E s ray ∧ sphereT2 E s ray < t_max → r.t ≤ sphereT2 E s ray) ∧
         r.p = ray.point_at_parameter r.t ∧
         r.normal = (r.p - s.center) / s.radius ∧
         (s.radius ≠ 0 → (r.p - s.center).square_length = s.radius ^ 2 →
           r.normal.square_length = 1)) := by
  constructor
  · intro hd
    rw [sphere_hit_eq, if_neg (not_lt.mpr hd)]
  · intro ha hd hsq hnn hadm
    have hspos : 0 < E.sq (sphereDisc s ray) := by
      rcases lt_or_eq_of_le hnn with h | h
      · exact h
      · exfalso
        rw [← h] at hsq
        simp at hsq
        rw [← hsq] at hd
        exact lt_irrefl 0 hd
    have ht12 : sphereT1 E s ray < sphereT2 E s ray := by
      unfold sphereT1 sphereT2
      have h2a : (0 : ℚ) < 2 * sphereA ray := by linarith
      exact (div_lt_div_right h2a).mpr (by linarith)
    refine ⟨ht12, ?_⟩
    have hdivlen : ∀ (w : Vec3) (rad : ℚ), rad ≠ 0 → w.square_length = rad ^ 2 →
        (w / rad).square_length = 1 := by
      intro w rad hr hw
      rcases w with ⟨wx, wy, wz⟩
      simp only [Vec3.square_length, Vec3.dot, Vec3.div_def] at hw ⊢
      field_simp
      linear_combination hw
    have hunit : ∀ t : ℚ,
        s.radius ≠ 0 →
        (ray.point_at_parameter t - s.center).square_length = s.radius ^ 2 →
        ((ray.point_at_parameter t - s.center) / s.radius).square_length = 1 :=
      fun t hrad hon => hdivlen _ _ hrad hon
    rw [sphere_hit_eq, if_pos hd]
    by_cases h1 : t_min < sphereT1 E s ray ∧ sphereT1 E s ray < t_max
    · rw [if_pos h1]
      exact ⟨_, rfl, Or.inl rfl, h1.1, h1.2, fun _ => le_refl _,
        fun _ => le_of_lt ht12, rfl, rfl, hunit _⟩
    · have h2 := hadm.resolve_left h1
      rw [if_neg h1, if_pos h2]
      exact ⟨_, rfl, Or.inr rfl, h2.1, h2.2, fun h1' => absurd h1' h1,
        fun _ => le_refl _, rfl, rfl, hunit _⟩

/-- Witness for C5: the witness ray meets the witness unit sphere with
discriminant `4`; the theorem yields the nearest admissible root. -/
theorem c5_witness :
    sphereT1 E0 sphere0 ray0 < sphereT2 E0 sphere0 ray0 ∧
    ∃ r : HitRecord, sphere0.hit E0 ray0 0 10 none = (true, some r) ∧
      (r.t = sphereT1 E0 sphere0 ray0 ∨ r.t = sphereT2 E0 sphere0 ray0) ∧
      0 < r.t ∧ r.t < 10 ∧
      (0 < sphereT1 E0 sphere0 ray0 ∧ sphereT1 E0 sphere0 ray0 < 10 →
        r.t ≤ sphereT1 E0 sphere0 ray0) ∧
      (0 < sphereT2 E0 sphere0 ray0 ∧ sphereT2 E0 sphere0 ray0 < 10 →
        r.t ≤ sphereT2 E0 sphere0 ray0) ∧
      r.p = ray0.point_at_parameter r.t ∧
      r.normal = (r.p - sphere0.center) / sphere0.radius ∧
      (sphere0.radius ≠ 0 → (r.p - sphere0.center).square_length = sphere0.radius ^ 2 →
        r.normal.square_length = 1) :=
  (c5_sphere_hit_nearest_root E0 sphere0 ray0 0 10 none).2
    (by norm_num [sphereA, Vec3.square_length, Vec3.dot, ray0, Ray.direction])
    (by norm_num [sphereDisc, sphereA, sphereB, sphereC, Vec3.square_length, Vec3.dot,
      ray0, sphere0, Ray.direction, Ray.origin, Vec3.zeros])
    (by norm_num [sphereDisc, sphereA, sphereB, sphereC, Vec3.square_length, Vec3.dot,
      ray0, sphere0, Ray.direction, Ray.origin, Vec3.zeros, E0, sqTable])
    (by norm_num [sphereDisc, sphereA, sphereB, sphereC, Vec3.square_length, Vec3.dot,
      ray0, sphere0, Ray.direction, Ray.origin, Vec3.zeros, E0, sqTable])
    (Or.inl (by norm_num [sphereT1, sphereDisc, sphereA, sphereB, sphereC,
      Vec3.square_length, Vec3.dot, ray0, sphere0, Ray.direction, Ray.origin,
      Vec3.zeros, E0, sqTable]))

/-- Componentwise multiplication of colors is commutative. -/
lemma vec3_mul_comm (a b : Vec3) : a * b = b * a := by
  simp only [Vec3.mul_def, Vec3.mk.injEq]
  exact ⟨mul_comm _ _, mul_comm _ _, mul_comm _ _⟩

/-- C2.  When the scene reports a hit, `Ray::color` returns exactly black
if the material absorbs the ray or the bounce budget is exhausted
(`depth ≥ max_depth`); when the material scatters and `depth < max_depth`
it returns the componentwise product of the attenuation and the recursive
color of the scattered ray. -/
theorem c2_color_absorption_and_tint (E : Env) (R : ℕ → ℚ) (F : ℕ) (ray : Ray)
    (world : HittableList) (depth max_depth k k1 k2 : ℕ) (hr : HitRecord)
    (sb : Bool) (attn : Vec3) (sc : Ray)
    (hhit : world.hit E R F ray (1 / 1000) F32_MAX none k = (true, some hr, k1))
    (hsc : hr.material.scatter E R F ray hr Vec3.zeros ⟨Vec3.zeros, Vec3.zeros⟩ k1
      = (sb, attn, sc, k2)) :
    ((sb = false ∨ max_depth ≤ depth) →
      (Ray.color E R F ray world depth max_depth k).1 = Vec3.zeros)
    ∧ (sb = true → depth < max_depth →
      (Ray.color E R F ray world depth max_depth k).1
        = attn * (Ray.color E R F sc world (depth + 1) max_depth k2).1) := by
  constructor
  · intro habs
    rw [Ray.color]
    rw [hhit]
    simp only
    rw [hsc]
    simp only
    have hneg : ¬(depth < max_depth ∧ sb = true) := by
      rintro ⟨hlt, hb⟩
      rcases habs with h | h
      · rw [h] at hb
        exact Bool.false_ne_true hb
      · omega
    rw [dif_neg hneg, if_pos trivial]
  · intro hsb hlt
    rw [Ray.color]
    rw [hhit]
    simp only
    rw [hsc]
    simp only
    rw [dif_pos ⟨hlt, hsb⟩, if_pos trivial]
    exact vec3_mul_comm _ _

/-- Witness for C2: the witness ray hits the Lambertian sphere with the
bounce budget already exhausted (`depth = max_depth = 5`), so the color is
exactly black. -/
theorem c2_witness :
    (Ray.color E0 R0 2 ray0 world1 5 5 0).1 = Vec3.zeros :=
  (c2_color_absorption_and_tint E0 R0 2 ray0 world1 5 5 0 0 3
    ⟨2, ⟨1, 0, 0⟩, ⟨1, 0, 0⟩, Material.Lambertian ⟨⟨1 / 10, 2 / 10, 3 / 10⟩⟩, 0⟩
    true ⟨1 / 10, 2 / 10, 3 / 10⟩ ⟨⟨1, 0, 0⟩, ⟨1, 0, 0⟩⟩
    (by norm_num [HittableList.hit, hitScan, Form.hit, Form.material, sphere_hit_eq,
      sphereDisc, sphereA, sphereB, sphereC, sphereT1, sphereT2, Vec3.square_length,
      Vec3.dot, world1, ray0, sphere0, Ray.direction, Ray.origin, Ray.point_at_parameter,
      Vec3.zeros, E0, sqTable, F32_MAX])
    (by norm_num [Material.scatter, random_in_unit_sphere, rejectLoop, Vec3.random,
      Vec3.ones, Vec3.zeros, Vec3.square_length, Vec3.dot, R0])).1 (Or.inr (le_refl 5))

/-- C9.  The recursion of `Ray::color` is bounded: it recurses only with
`depth + 1` and only when `depth < max_depth`, so any fuel exceeding
`max_depth - depth` makes the fuel-indexed unfolding agree with the
function — the recursion depth never exceeds `max_depth - depth`. -/
theorem c9_color_depth_bounded (E : Env) (R : ℕ → ℚ) (F : ℕ) :
    ∀ (fuel : ℕ) (ray : Ray) (world : HittableList) (depth max_depth k : ℕ),
      max_depth - depth < fuel →
      Ray.colorFuel E R F fuel ray world depth max_depth k
        = Ray.color E R F ray world depth max_depth k := by
  intro fuel
  induction fuel with
  | zero => intro ray world depth max_depth k h; exact absurd h (Nat.not_lt_zero _)
  | succ n ih =>
    intro ray world depth max_depth k h
    rw [Ray.color]
    simp only [Ray.colorFuel]
    rcases hres : world.hit E R F ray (1 / 1000) F32_MAX none k with ⟨hb, rec, k1⟩
    cases hb
    · rfl
    · cases rec with
      | none => rfl
      | some hit_rec =>
        simp only
        rcases hscr : hit_rec.material.scatter E R F ray hit_rec Vec3.zeros
          ⟨Vec3.zeros, Vec3.zeros⟩ k1 with ⟨sb, attn, sc, k2⟩
        simp only
        by_cases hcond : depth < max_depth ∧ sb = true
        · rw [if_pos hcond, dif_pos hcond, ih sc world (depth + 1) max_depth k2 (by omega)]
        · rw [if_neg hcond, dif_neg hcond]

/-- Witness for C9: in the empty scene with `depth = 0`, `max_depth = 2`,
fuel `3` already suffices to compute `Ray::color`. -/
theorem c9_witness :
    Ray.colorFuel E0 R0 2 3 ray0 ⟨[]⟩ 0 2 0 = Ray.color E0 R0 2 ray0 ⟨[]⟩ 0 2 0 :=
  c9_color_depth_bounded E0 R0 2 3 ray0 ⟨[]⟩ 0 2 0 (by norm_num)

/-- Once the `hit_any` flag is set, the scan reports a hit. -/
lemma hitScan_flag (E : Env) (R : ℕ → ℚ) (F : ℕ) (ray : Ray) (t_min : ℚ) :
    ∀ (fs : List Form) (idx : ℕ) (temp rec : Option HitRecord) (t_cl : ℚ) (k : ℕ),
      (hitScan E R F ray t_min fs idx temp true t_cl rec k).1 = true := by
  intro fs
  induction fs with
  | nil => intros; rfl
  | cons f fs ih =>
    intro idx temp rec t_cl k
    simp only [hitScan]
    rcases f.hit E R F ray t_min t_cl temp k with ⟨b, tr, k'⟩
    cases b
    · simpa using ih ..
    · cases tr with
      | none => simpa using ih ..
      | some rr => simpa using ih ..

/-- When the scan reports no hit, the caller's record is untouched. -/
lemma hitScan_false_rec (E : Env) (R : ℕ → ℚ) (F : ℕ) (ray : Ray) (t_min : ℚ) :
    ∀ (fs : List Form) (idx : ℕ) (temp rec : Option HitRecord) (hit_any : Bool)
      (t_cl : ℚ) (k : ℕ),
      (hitScan E R F ray t_min fs idx temp hit_any t_cl rec k).1 = false →
      (hitScan E R F ray t_min fs idx temp hit_any t_cl rec k).2.1 = rec := by
  intro fs
  induction fs with
  | nil =>
    intro idx temp rec hit_any t_cl k _
    rfl
  | cons f fs ih =>
    intro idx temp rec hit_any t_cl k hfalse
    simp only [hitScan] at hfalse ⊢
    revert hfalse
    rcases f.hit E R F ray t_min t_cl temp k with ⟨b, tr, k'⟩
    intro hfalse
    cases b
    · simp only [Bool.false_eq_true, if_false] at hfalse ⊢
      exact ih (idx + 1) tr rec hit_any t_cl k' hfalse
    · cases tr with
      | none =>
        simp only at hfalse ⊢
        rw [if_pos trivial] at hfalse
        rw [hitScan_flag] at hfalse
        exact absurd hfalse (by simp)
      | some rr =>
        simp only at hfalse ⊢
        rw [if_pos trivial] at hfalse
        rw [hitScan_flag] at hfalse
        exact absurd hfalse (by simp)

/-- Contract of a primitive's `Hittable::hit` along a fixed ray and lower
bound: the primitive's intersection parameters form the finite set `S`; a
hit is reported exactly when `S` meets the open range, and a reported
record carries the smallest such parameter.  This is the claim's phrase
"a primitive reports an intersection in range" made precise. -/
def HitsExactly (E : Env) (R : ℕ → ℚ) (F : ℕ) (f : Form) (ray : Ray) (t_min : ℚ)
    (S : Finset ℚ) : Prop :=
  ∀ (t_max : ℚ) (rec : Option HitRecord) (k : ℕ),
    (((f.hit E R F ray t_min t_max rec k).1 = true) ↔ ∃ t ∈ S, t_min < t ∧ t < t_max)
    ∧ ((f.hit E R F ray t_min t_max rec k).1 = true →
       ∃ r : HitRecord, (f.hit E R F ray t_min t_max rec k).2.1 = some r ∧
         r.t ∈ S ∧ t_min < r.t ∧ r.t < t_max ∧
         ∀ t ∈ S, t_min < t → t < t_max → r.t ≤ t)

/-- Main invariant of the linear scan: under the per-form contract, the
scan reports a hit exactly when the flag was already set or some form has
an admissible parameter below the running bound, and the resulting record
holds the global minimum. -/
lemma hitScan_nearest (E : Env) (R : ℕ → ℚ) (F : ℕ) (ray : Ray) (t_min : ℚ) :
    ∀ (fs : List Form) (Ss : ℕ → Finset ℚ)
      (hc : ∀ m (hm : m < fs.length), HitsExactly E R F (fs.get ⟨m, hm⟩) ray t_min (Ss m))
      (idx : ℕ) (temp rec : Option HitRecord) (hit_any : Bool) (t_closest : ℚ) (k : ℕ)
      (hinv : hit_any = true →
        ∃ r0 : HitRecord, rec = some r0 ∧ r0.t = t_closest ∧ t_min < r0.t),
      ((hitScan E R F ray t_min fs idx temp hit_any t_closest rec k).1 = true ↔
        (hit_any = true ∨ ∃ m, m < fs.length ∧ ∃ t ∈ Ss m, t_min < t ∧ t < t_closest))
      ∧ ((hitScan E R F ray t_min fs idx temp hit_any t_closest rec k).1 = true →
        ∃ r : HitRecord,
          (hitScan E R F ray t_min fs idx temp hit_any t_closest rec k).2.1 = some r ∧
          t_min < r.t ∧ r.t ≤ t_closest ∧
          ((hit_any = true ∧ rec = some r ∧ r.t = t_closest) ∨
            (∃ m, m < fs.length ∧ r.t ∈ Ss m ∧ r.t < t_closest)) ∧
          (∀ m, m < fs.length → ∀ t ∈ Ss m, t_min < t → t < t_closest → r.t ≤ t)) := by
  intro fs
  induction fs with
  | nil =>
    intro Ss hc idx temp rec hit_any t_closest k hinv
    constructor
    · constructor
      · intro h
        exact Or.inl h
      · rintro (h | ⟨m, hm, _⟩)
        · exact h
        · exact absurd hm (Nat.not_lt_zero m)
    · intro h
      obtain ⟨r0, hrec, hrt, hlo⟩ := hinv h
      refine ⟨r0, ?_, hlo, le_of_eq hrt, Or.inl ⟨h, hrec, hrt⟩, ?_⟩
      · simpa [hitScan] using hrec
      · intro m hm
        exact absurd hm (Nat.not_lt_zero m)
  | cons f fs ih =>
    intro Ss hc idx temp rec hit_any t_closest k hinv
    obtain ⟨hiff0, hmin0⟩ := hc 0 (by simp) t_closest temp k
    simp only [List.get] at hiff0 hmin0
    simp only [hitScan]
    revert hiff0 hmin0
    rcases f.hit E R F ray t_min t_closest temp k with ⟨b, tr, k'⟩
    intro hiff0 hmin0
    simp only at hiff0 hmin0 ⊢
    have hc' : ∀ m (hm : m < fs.length),
        HitsExactly E R F (fs.get ⟨m, hm⟩) ray t_min (Ss (m + 1)) := by
      intro m hm
      have := hc (m + 1) (by simpa using Nat.succ_lt_succ hm)
      simpa [List.get] using this
    cases b with
    | false =>
      have hne0 : ¬∃ t ∈ Ss 0, t_min < t ∧ t < t_closest := by
        intro hex
        exact absurd (hiff0.mpr hex) (by simp)
      rw [if_neg (by simp)]
      obtain ⟨ihiff, ihmin⟩ :=
        ih (fun m => Ss (m + 1)) hc' (idx + 1) tr rec hit_any t_closest k' hinv
      constructor
      · rw [ihiff]
        constructor
        · rintro (h | ⟨m, hm, t, htS, hlo, hhi⟩)
          · exact Or.inl h
          · exact Or.inr ⟨m + 1, by simp only [List.length_cons]; omega, t, htS, hlo, hhi⟩
        · rintro (h | ⟨m, hm, t, htS, hlo, hhi⟩)
          · exact Or.inl h
          · cases m with
            | zero => exact absurd ⟨t, htS, hlo, hhi⟩ hne0
            | succ m' => exact Or.inr ⟨m', by simp only [List.length_cons] at hm; omega, t, htS, hlo, hhi⟩
      · intro h
        obtain ⟨r, hres, hlo, hle, hdisj, hminim⟩ := ihmin h
        refine ⟨r, hres, hlo, hle, ?_, ?_⟩
        · rcases hdisj with h1 | ⟨m, hm, hS, hlt⟩
          · exact Or.inl h1
          · exact Or.inr ⟨m + 1, by simp only [List.length_cons]; omega, hS, hlt⟩
        · intro m hm t htS hlo' hhi'
          cases m with
          | zero => exact absurd ⟨t, htS, hlo', hhi'⟩ hne0
          | succ m' => exact hminim m' (by simp only [List.length_cons] at hm; omega) t htS hlo' hhi'
    | true =>
      obtain ⟨rr, htr, hrrS, hrrlo, hrrhi, hrrmin⟩ := hmin0 rfl
      subst htr
      rw [if_pos rfl]
      simp only
      obtain ⟨ihiff, ihmin⟩ := ih (fun m => Ss (m + 1)) hc' (idx + 1) (some rr)
        (some ⟨rr.t, rr.p, rr.normal, f.material, idx⟩) true rr.t k'
        (fun _ => ⟨⟨rr.t, rr.p, rr.normal, f.material, idx⟩, rfl, rfl, hrrlo⟩)
      have hres_true : (hitScan E R F ray t_min fs (idx + 1) (some rr)
          true rr.t (some ⟨rr.t, rr.p, rr.normal, f.material, idx⟩) k').1 = true :=
        ihiff.mpr (Or.inl rfl)
      constructor
      · constructor
        · intro _
          exact Or.inr ⟨0, by simp only [List.length_cons]; omega, rr.t, hrrS, hrrlo, hrrhi⟩
        · intro _
          exact hres_true
      · intro _
        obtain ⟨r, hres, hlo, hle, hdisj, hminim⟩ := ihmin hres_true
        refine ⟨r, hres, hlo, le_trans hle (le_of_lt hrrhi), ?_, ?_⟩
        · rcases hdisj with ⟨_, hrec', hrt'⟩ | ⟨m, hm, hS, hlt⟩
          · refine Or.inr ⟨0, by simp only [List.length_cons]; omega, ?_, ?_⟩
            · have : r.t = rr.t := hrt'
              rw [this]
              exact hrrS
            · rw [hrt']
              exact hrrhi
          · exact Or.inr ⟨m + 1, by simp only [List.length_cons]; omega, hS, lt_trans hlt hrrhi⟩
        · intro m hm t htS hlo' hhi'
          cases m with
          | zero => exact le_trans hle (hrrmin t htS hlo' hhi')
          | succ m' =>
            by_cases hlt : t < rr.t
            · exact hminim m' (by simp only [List.length_cons] at hm; omega) t htS hlo' hlt
            · exact le_trans hle (le_of_not_lt hlt)

/-- C1.  `HittableList::hit`: whenever at least one primitive reports an
intersection in the admissible range (each primitive reporting, per its
contract, the minimum of its intersection-parameter set within the range),
the aggregate reports a hit whose `t` is the smallest admissible
intersection parameter among all primitives — the linear scan with its
narrowing upper bound returns the globally nearest hit. -/
theorem c1_hittable_list_nearest (E : Env) (R : ℕ → ℚ) (F : ℕ) (world : HittableList)
    (ray : Ray) (t_min t_max : ℚ) (rec : Option HitRecord) (k : ℕ) (Ss : ℕ → Finset ℚ)
    (hc : ∀ m (hm : m < world.forms.length),
      HitsExactly E R F (world.forms.get ⟨m, hm⟩) ray t_min (Ss m))
    (hex : ∃ m, m < world.forms.length ∧ ∃ t ∈ Ss m, t_min < t ∧ t < t_max) :
    (world.hit E R F ray t_min t_max rec k).1 = true ∧
    ∃ r : HitRecord, (world.hit E R F ray t_min t_max rec k).2.1 = some r ∧
      (∃ m, m < world.forms.length ∧ r.t ∈ Ss m) ∧
      t_min < r.t ∧ r.t < t_max ∧
      ∀ m, m < world.forms.length → ∀ t ∈ Ss m, t_min < t → t < t_max → r.t ≤ t := by
  obtain ⟨hiff, hmin⟩ := hitScan_nearest E R F ray t_min world.forms Ss hc 0 none rec
    false t_max k (fun h => absurd h (by simp))
  have h1 : (world.hit E R F ray t_min t_max rec k).1 = true := hiff.mpr (Or.inr hex)
  refine ⟨h1, ?_⟩
  obtain ⟨r, hres, hlo, _, hdisj, hminim⟩ := hmin h1
  rcases hdisj with ⟨hfa, _, _⟩ | ⟨m, hm, hS, hlt⟩
  · exact absurd hfa (by simp)
  · exact ⟨r, hres, ⟨m, hm, hS⟩, hlo, hlt, hminim⟩

/-- The witness sphere satisfies the intersection contract along the
witness ray with lower bound `0`: its parameter set is `{2, 4}`. -/
lemma sphere0_hits_exactly :
    HitsExactly E0 R0 2 (Form.Sphere sphere0) ray0 0 ({2, 4} : Finset ℚ) := by
  intro t_max rec k
  have hD : sphereDisc sphere0 ray0 = 4 := by
    norm_num [sphereDisc, sphereA, sphereB, sphereC, Vec3.square_length, Vec3.dot,
      ray0, sphere0, Ray.direction, Ray.origin, Vec3.zeros]
  have hT1 : sphereT1 E0 sphere0 ray0 = 2 := by
    norm_num [sphereT1, sphereDisc, sphereA, sphereB, sphereC, Vec3.square_length,
      Vec3.dot, ray0, sphere0, Ray.direction, Ray.origin, Vec3.zeros, E0, sqTable]
  have hT2 : sphereT2 E0 sphere0 ray0 = 4 := by
    norm_num [sphereT2, sphereDisc, sphereA, sphereB, sphereC, Vec3.square_length,
      Vec3.dot, ray0, sphere0, Ray.direction, Ray.origin, Vec3.zeros, E0, sqTable]
  have heq : Form.hit E0 R0 2 (Form.Sphere sphere0) ray0 0 t_max rec k =
      ((sphere0.hit E0 ray0 0 t_max rec).1, (sphere0.hit E0 ray0 0 t_max rec).2, k) := rfl
  rw [heq, sphere_hit_eq, hD, hT1, hT2, if_pos (by norm_num)]
  by_cases h2 : (2 : ℚ) < t_max
  · rw [if_pos ⟨by norm_num, h2⟩]
    constructor
    · constructor
      · intro _
        exact ⟨2, by simp, by norm_num, h2⟩
      · intro _
        rfl
    · intro _
      refine ⟨_, rfl, by simp, by norm_num, h2, ?_⟩
      intro t htS hlo hhi
      rcases Finset.mem_insert.mp htS with h | h
      · rw [h]
      · rw [Finset.mem_singleton] at h
        rw [h]
        norm_num
  · rw [if_neg (by intro h; exact h2 h.2)]
    have h4 : ¬(4 : ℚ) < t_max := by
      intro h
      exact h2 (by linarith)
    rw [if_neg (by intro h; exact h4 h.2)]
    constructor
    · constructor
      · intro h
        exact absurd h (by simp)
      · rintro ⟨t, htS, hlo, hhi⟩
        rcases Finset.mem_insert.mp htS with h | h
        · rw [h] at hhi
          exact (h2 hhi).elim
        · rw [Finset.mem_singleton] at h
          rw [h] at hhi
          exact (h4 hhi).elim
    · intro h
      exact absurd h (by simp)

/-- Witness for C1: the one-sphere witness scene, queried on `(0, 10)`,
reports the nearest intersection parameter `2` of the set `{2, 4}`. -/
theorem c1_witness :
    (world1.hit E0 R0 2 ray0 0 10 none 0).1 = true ∧
    ∃ r : HitRecord, (world1.hit E0 R0 2 ray0 0 10 none 0).2.1 = some r ∧
      (∃ m, m < world1.forms.length ∧ r.t ∈ ({2, 4} : Finset ℚ)) ∧
      0 < r.t ∧ r.t < 10 ∧
      ∀ m, m < world1.forms.length → ∀ t ∈ ({2, 4} : Finset ℚ),
        0 < t → t < 10 → r.t ≤ t :=
  c1_hittable_list_nearest E0 R0 2 world1 ray0 0 10 none 0 (fun _ => {2, 4})
    (by
      intro m hm
      have hm0 : m = 0 := by
        simp only [world1, List.length_singleton] at hm
        omega
      subst hm0
      exact sphere0_hits_exactly)
    ⟨0, by norm_num [world1], 2, by norm_num, by norm_num, by norm_num⟩

/-- One face test either leaves the state unchanged or raises the flag. -/
lemma faceStep_cases (c : Cube) (ray : Ray) (t_min : ℚ) (isi : ℕ × ℚ)
    (st : Bool × ℚ × Option HitRecord) :
    Cube.faceStep c ray t_min isi st = st ∨ (Cube.faceStep c ray t_min isi st).1 = true := by
  rcases st with ⟨dh, tc, rec⟩
  rcases isi with ⟨i, si⟩
  simp only [Cube.faceStep]
  split_ifs <;> simp

/-- Once the face loop's flag is raised, it stays raised. -/
lemma foldFaces_flag (c : Cube) (ray : Ray) (t_min : ℚ) :
    ∀ (faces : List (ℕ × ℚ)) (st : Bool × ℚ × Option HitRecord), st.1 = true →
      (faces.foldl (fun s isi => Cube.faceStep c ray t_min isi s) st).1 = true := by
  intro faces
  induction faces with
  | nil => intro st h; exact h
  | cons a as ih =>
    intro st h
    simp only [List.foldl_cons]
    apply ih
    rcases faceStep_cases c ray t_min a st with he | ht
    · rw [he]; exact h
    · exact ht

/-- If the face loop reports no hit, it left the record component alone. -/
lemma foldFaces_false_rec (c : Cube) (ray : Ray) (t_min : ℚ) :
    ∀ (faces : List (ℕ × ℚ)) (st : Bool × ℚ × Option HitRecord),
      (faces.foldl (fun s isi => Cube.faceStep c ray t_min isi s) st).1 = false →
      (faces.foldl (fun s isi => Cube.faceStep c ray t_min isi s) st).2.2 = st.2.2 := by
  intro faces
  induction faces with
  | nil => intro st _; rfl
  | cons a as ih =>
    intro st h
    simp only [List.foldl_cons] at h ⊢
    rcases faceStep_cases c ray t_min a st with he | ht
    · rw [he] at h ⊢
      exact ih st h
    · rw [foldFaces_flag c ray t_min as _ ht] at h
      exact absurd h (by simp)

/-- C8 (amended).  `Sphere::hit`, `Square::hit`, `Rectangle::hit` and
`HittableList::hit` leave the caller's record untouched whenever they
return `false`; `Cube::hit`, however, hands the caller's record to its
bounding-sphere pre-test, so on a `false` return the record holds whatever
that pre-test left there (the caller's record only when the bounding
sphere also missed). -/
theorem c8_record_untouched_on_miss :
    (∀ (E : Env) (s : Sphere) (ray : Ray) (t_min t_max : ℚ) (rec : Option HitRecord),
      (s.hit E ray t_min t_max rec).1 = false → (s.hit E ray t_min t_max rec).2 = rec)
    ∧ (∀ (E : Env) (R : ℕ → ℚ) (F : ℕ) (sq : Square) (ray : Ray) (t_min t_max : ℚ)
        (rec : Option HitRecord) (k : ℕ),
      (sq.hit E R F ray t_min t_max rec k).1 = false →
      (sq.hit E R F ray t_min t_max rec k).2.1 = rec)
    ∧ (∀ (E : Env) (R : ℕ → ℚ) (F : ℕ) (rc : Rectangle) (ray : Ray) (t_min t_max : ℚ)
        (rec : Option HitRecord) (k : ℕ),
      (rc.hit E R F ray t_min t_max rec k).1 = false →
      (rc.hit E R F ray t_min t_max rec k).2.1 = rec)
    ∧ (∀ (E : Env) (R : ℕ → ℚ) (F : ℕ) (w : HittableList) (ray : Ray) (t_min t_max : ℚ)
        (rec : Option HitRecord) (k : ℕ),
      (w.hit E R F ray t_min t_max rec k).1 = false →
      (w.hit E R F ray t_min t_max rec k).2.1 = rec)
    ∧ (∀ (E : Env) (c : Cube) (ray : Ray) (t_min t_max : ℚ) (rec : Option HitRecord),
      (c.hit E ray t_min t_max rec).1 = false →
      (c.hit E ray t_min t_max rec).2
        = (Sphere.hit E ⟨c.center, c.length * E.sq 3 / 2, c.material⟩ ray t_min t_max rec).2) := by
  refine ⟨?_, ?_, ?_, ?_, ?_⟩
  · intro E s ray t_min t_max rec hfalse
    rw [sphere_hit_eq] at hfalse ⊢
    split_ifs at hfalse ⊢ <;> first | rfl | simp at hfalse
  · intro E R F sq ray t_min t_max rec k hfalse
    simp only [Square.hit] at hfalse ⊢
    split_ifs at hfalse ⊢ <;> first | rfl | simp at hfalse
  · intro E R F rc ray t_min t_max rec k hfalse
    simp only [Rectangle.hit] at hfalse ⊢
    split_ifs at hfalse ⊢ <;> first | rfl | simp at hfalse
  · intro E R F w ray t_min t_max rec k hfalse
    exact hitScan_false_rec E R F ray t_min w.forms 0 none rec false t_max k hfalse
  · intro E c ray t_min t_max rec hfalse
    simp only [Cube.hit] at hfalse ⊢
    revert hfalse
    rcases Sphere.hit E ⟨c.center, c.length * E.sq 3 / 2, c.material⟩ ray t_min t_max rec
      with ⟨sb, rec1⟩
    intro hfalse
    cases sb
    · rfl
    · simp only at hfalse ⊢
      revert hfalse
      rcases hfold : Cube.faceList.foldl (fun st isi => Cube.faceStep c ray t_min isi st)
        (false, t_max, rec1) with ⟨dh, tc, rec2⟩
      intro hfalse
      have hdh : dh = false := hfalse
      subst hdh
      have h2 := foldFaces_false_rec c ray t_min Cube.faceList (false, t_max, rec1)
        (by rw [hfold])
      rw [hfold] at h2
      exact h2

/-- Square-root oracle for the C8 counterexample: `√3 ≈ 433/250` (the
`f32` value up to the displayed digits) and the resulting bounding-sphere
discriminant's root. -/
def sqCube : ℚ → ℚ := fun x =>
  if x = 3 then 433 / 250 else if x = 64989 / 15625 then 10197 / 5000 else 0

/-- Oracle environment for the C8 counterexample. -/
def Ecube : Env := ⟨sqCube, fun _ => 0, fun _ => 0⟩

/-- Axis-aligned cube of edge 2 at the origin. -/
def cube0 : Cube :=
  ⟨Vec3.zeros, 2, Material.Lambertian ⟨Vec3.zeros⟩, ⟨1, 0, 0⟩, ⟨0, 1, 0⟩, ⟨0, 0, 1⟩⟩

/-- A ray through the bounding sphere of `cube0` (height `1.4 < √3`) that
misses the cube itself (height above `1`). -/
def rayCube : Ray := ⟨⟨3, 7 / 5, 0⟩, ⟨-1, 0, 0⟩⟩

/-- The record written by `cube0`'s bounding-sphere pre-test on `rayCube`. -/
def cubeRecS : HitRecord :=
  ⟨19803 / 10000, ⟨10197 / 10000, 7 / 5, 0⟩, ⟨10197 / 17320, 350 / 433, 0⟩,
    Material.Lambertian ⟨Vec3.zeros⟩, 0⟩

/-- Counterexample for C8 as stated: `Cube::hit` returns `false` on
`rayCube`, yet the caller's (empty) record has been overwritten by the
bounding-sphere pre-test. -/
theorem c8_counterexample :
    (cube0.hit Ecube rayCube (1 / 1000) 100 none).1 = false ∧
    (cube0.hit Ecube rayCube (1 / 1000) 100 none).2 ≠ none := by
  have hsph : Sphere.hit Ecube ⟨cube0.center, cube0.length * Ecube.sq 3 / 2, cube0.material⟩
      rayCube (1 / 1000) 100 none = (true, some cubeRecS) := by
    rw [sphere_hit_eq]
    norm_num [sphereDisc, sphereA, sphereB, sphereC, sphereT1, sphereT2,
      Vec3.square_length, Vec3.dot, Vec3.zeros, cube0, rayCube, Ecube, sqCube,
      Ray.direction, Ray.origin, Ray.point_at_parameter, cubeRecS]
  have habs : |(7 : ℚ) / 5| = 7 / 5 := abs_of_pos (by norm_num)
  have hfold : Cube.faceList.foldl (fun st isi => Cube.faceStep cube0 rayCube (1 / 1000) isi st)
      (false, 100, some cubeRecS) = (false, 100, some cubeRecS) := by
    simp only [Cube.faceList, List.foldl_cons, List.foldl_nil]
    norm_num [Cube.faceStep, Cube.faceBasis, Vec3.cross, Vec3.dot, Vec3.zeros,
      cube0, rayCube, Ray.direction, Ray.origin, habs, abs_one, abs_zero]
  constructor
  · simp only [Cube.hit, hsph, hfold]
    rw [if_pos trivial]
  · simp only [Cube.hit, hsph, hfold]
    rw [if_pos trivial]
    simp

/-- Witness for C8 (amended): `Sphere::hit` misses (negative discriminant)
and leaves a pre-existing record exactly as it was. -/
theorem c8_witness :
    (sphere0.hit E0 rayMiss 0 10
        (some ⟨1, Vec3.zeros, Vec3.zeros, Material.Lambertian ⟨Vec3.zeros⟩, 0⟩)).2
      = some ⟨1, Vec3.zeros, Vec3.zeros, Material.Lambertian ⟨Vec3.zeros⟩, 0⟩ :=
  c8_record_untouched_on_miss.1 E0 sphere0 rayMiss 0 10
    (some ⟨1, Vec3.zeros, Vec3.zeros, Material.Lambertian ⟨Vec3.zeros⟩, 0⟩)
    (by
      rw [sphere_hit_eq, if_neg]
      norm_num [sphereDisc, sphereA, sphereB, sphereC, Vec3.square_length, Vec3.dot,
        rayMiss, sphere0, Ray.direction, Ray.origin, Vec3.zeros])

/-- Whether an optional hit record names primitive `j`. -/
def hitIndexIs (hr : Option HitRecord) (j : ℕ) : Bool :=
  match hr with
  | some r => if r.hit_elem = j then true else false
  | none => false

/-- One Monte Carlo contribution, phrased as the specification does:
`cosβ1 · cosβ2 / l² · dA1 · dA2` along the segment between the two sampled
surface points, with `cosβ2` zeroed when the occlusion ray from the point
on the emitter toward the point on the receiver hits the scene within
distance `l` without reaching primitive `j`, and the whole contribution
zeroed when either cosine is negative. -/
def specContribution (E : Env) (R : ℕ → ℚ) (F : ℕ) (world : HittableList)
    (form_1 form_2 : Form) (j : ℕ) (st : ℚ × Option HitRecord × ℕ) : ℚ :=
  let k := st.2.2
  let s1 := R k
  let t1 := R (k + 1)
  let s2 := R (k + 2)
  let t2 := R (k + 3)
  let p1 := form_1.point E s1 t1
  let n1 := form_1.normal E s1 t1
  let p2 := form_2.point E s2 t2
  let n2 := form_2.normal E s2 t2
  let r12 := p2 - p1
  let l := r12.length E
  let cosTheta1 := r12.dot n1 / l
  let cosTheta2 := (-r12).dot n2 / l
  let occ := world.hit E R F ⟨p1, r12.unit_vector E⟩ (1 / 100000000) l st.2.1 (k + 4)
  let cosTheta2' := if occ.1 && !(hitIndexIs occ.2.1 j) then 0 else cosTheta2
  if cosTheta1 < 0 ∨ cosTheta2' < 0 then 0
  else cosTheta1 * cosTheta2' / l ^ 2 * form_1.diff_a E s1 t1 * form_2.diff_a E s2 t2

/-- Each loop iteration of `view_factor` adds exactly the specification's
per-sample contribution to the accumulator. -/
lemma vfStep_increment (E : Env) (R : ℕ → ℚ) (F : ℕ) (world : HittableList)
    (form_1 form_2 : Form) (j : ℕ) (st : ℚ × Option HitRecord × ℕ) :
    (vfStep E R F world form_1 form_2 j st).1
      = st.1 + specContribution E R F world form_1 form_2 j st := by
  rcases st with ⟨temp, hit_rec, k⟩
  simp only [vfStep, specContribution, hitIndexIs]
  rcases world.hit E R F
    ⟨form_1.point E (R k) (R (k + 1)),
      (form_2.point E (R (k + 2)) (R (k + 3)) - form_1.point E (R k) (R (k + 1))).unit_vector E⟩
    (1 / 100000000)
    ((form_2.point E (R (k + 2)) (R (k + 3)) - form_1.point E (R k) (R (k + 1))).length E)
    hit_rec (k + 4) with ⟨hb, hr, k'⟩
  cases hb with
  | false =>
    simp only [Bool.false_and, Bool.false_eq_true, if_false]
    split_ifs <;> ring
  | true =>
    cases hr with
    | none =>
      simp only [Bool.not_false, Bool.and_self, Bool.true_and, eq_self_iff_true, if_true]
      split_ifs <;> ring
    | some r =>
      by_cases hj : r.hit_elem = j
      · simp only [if_pos hj, Bool.not_true, Bool.and_false, Bool.false_eq_true,
          if_false, eq_self_iff_true, if_true]
        split_ifs <;> ring
      · simp only [if_neg hj, Bool.not_false, Bool.and_self, Bool.true_and,
          eq_self_iff_true, if_true]
        split_ifs <;> ring

/-- The accumulator after `n` iterations is the initial value plus the sum
of the specification's per-sample contributions along the trace. -/
lemma vfIter_sum (E : Env) (R : ℕ → ℚ) (F : ℕ) (world : HittableList)
    (form_1 form_2 : Form) (j : ℕ) :
    ∀ (n : ℕ) (st : ℚ × Option HitRecord × ℕ),
      ((vfStep E R F world form_1 form_2 j)^[n] st).1
        = st.1 + ∑ m ∈ Finset.range n,
            specContribution E R F world form_1 form_2 j
              ((vfStep E R F world form_1 form_2 j)^[m] st) := by
  intro n
  induction n with
  | zero => intro st; simp
  | succ n ih =>
    intro st
    rw [Function.iterate_succ_apply', vfStep_increment, ih st, Finset.sum_range_succ]
    ring

/-- C3.  `view_factor(n, i, j)` equals the sum over the `n` Monte Carlo
samples of the specification's contribution `cosβ1·cosβ2/l²·dA1·dA2`
(zeroed on negative cosines; `cosβ2` zeroed when the occlusion ray hits
the scene within distance `l` at an index other than `j`), divided by
`π · area(i) · n`. -/
theorem c3_view_factor_formula (E : Env) (R : ℕ → ℚ) (F : ℕ) (world : HittableList)
    (n i j k : ℕ) (hi : i < world.forms.length) (hj : j < world.forms.length) :
    (view_factor E R F world n i j k).1
      = (∑ m ∈ Finset.range n,
          specContribution E R F world ((world.forms.get? i).getD defaultForm)
            ((world.forms.get? j).getD defaultForm) j
            ((vfStep E R F world ((world.forms.get? i).getD defaultForm)
              ((world.forms.get? j).getD defaultForm) j)^[m] (0, none, k)))
        / (PI * ((world.forms.get? i).getD defaultForm).area * (n : ℚ)) := by
  simp only [view_factor]
  rw [vfIter_sum, zero_add, div_div, div_div, mul_assoc]

/-- Second sphere for the two-primitive witness scene. -/
def sphere1 : Sphere := ⟨⟨10, 0, 0⟩, 1, Material.Lambertian ⟨Vec3.zeros⟩⟩

/-- Two-sphere witness scene. -/
def world2 : HittableList := ⟨[Form.Sphere sphere0, Form.Sphere sphere1]⟩

/-- Witness for C3: the formula instantiated on the two-sphere scene with
indices `0, 1` (here with zero samples, so both sides are the empty sum
normalized). -/
theorem c3_witness :
    (view_factor E0 R0 2 world2 0 0 1 0).1
      = (∑ m ∈ Finset.range 0,
          specContribution E0 R0 2 world2 ((world2.forms.get? 0).getD defaultForm)
            ((world2.forms.get? 1).getD defaultForm) 1
            ((vfStep E0 R0 2 world2 ((world2.forms.get? 0).getD defaultForm)
              ((world2.forms.get? 1).getD defaultForm) 1)^[m] (0, none, 0)))
        / (PI * ((world2.forms.get? 0).getD defaultForm).area * (0 : ℚ)) :=
  c3_view_factor_formula E0 R0 2 world2 0 0 1 0
    (by norm_num [world2]) (by norm_num [world2])

/-- A row of `view_factors` has one entry per inner-loop index. -/
lemma vfRow_length (E : Env) (R : ℕ → ℚ) (F : ℕ) (world : HittableList) (n i : ℕ) :
    ∀ (js : List ℕ) (k : ℕ), (vfRow E R F world n i js k).1.length = js.length := by
  intro js
  induction js with
  | nil => intro k; rfl
  | cons jh js ih =>
    intro k
    simp only [vfRow]
    rcases view_factor E R F world n i jh k with ⟨v, k'⟩
    rcases hrow : vfRow E R F world n i js k' with ⟨vs, k''⟩
    simp only [List.length_cons]
    have h2 := ih k'
    rw [hrow] at h2
    simp only at h2
    omega

/-- Each row entry is a `view_factor` call at the corresponding inner
index (for the random-counter state reached at that point). -/
lemma vfRow_getD (E : Env) (R : ℕ → ℚ) (F : ℕ) (world : HittableList) (n i : ℕ) :
    ∀ (js : List ℕ) (k m : ℕ), m < js.length →
      ∃ k', (vfRow E R F world n i js k).1.getD m 0
        = (view_factor E R F world n i (js.getD m 0) k').1 := by
  intro js
  induction js with
  | nil => intro k m hm; exact absurd hm (by simp)
  | cons jh js ih =>
    intro k m hm
    simp only [vfRow]
    rcases hvf : view_factor E R F world n i jh k with ⟨v, k'⟩
    rcases hrow : vfRow E R F world n i js k' with ⟨vs, k''⟩
    cases m with
    | zero =>
      refine ⟨k, ?_⟩
      simp only [List.getD_cons_zero]
      rw [hvf]
    | succ m' =>
      obtain ⟨k0, hk0⟩ := ih k' m' (by simp only [List.length_cons] at hm; omega)
      refine ⟨k0, ?_⟩
      simp only [List.getD_cons_succ]
      rw [hrow] at hk0
      simpa using hk0

/-- `view_factors` has one row per outer-loop index. -/
lemma vfRows_length (E : Env) (R : ℕ → ℚ) (F : ℕ) (world : HittableList) (n n_objs : ℕ) :
    ∀ (idxs : List ℕ) (k : ℕ),
      (vfRows E R F world n n_objs idxs k).1.length = idxs.length := by
  intro idxs
  induction idxs with
  | nil => intro k; rfl
  | cons ih0 idxs ih =>
    intro k
    simp only [vfRows]
    rcases vfRow E R F world n ih0
      (List.range' (ih0 + 1) (n_objs - (ih0 + 1))) k with ⟨row, k'⟩
    rcases hrows : vfRows E R F world n n_objs idxs k' with ⟨rows, k''⟩
    simp only [List.length_cons]
    have h2 := ih k'
    rw [hrows] at h2
    simp only at h2
    omega

/-- Each row of `view_factors` is the inner loop over `(i+1)..n_objs` for
the corresponding outer index (at the counter state reached there). -/
lemma vfRows_getD (E : Env) (R : ℕ → ℚ) (F : ℕ) (world : HittableList) (n n_objs : ℕ) :
    ∀ (idxs : List ℕ) (k m : ℕ), m < idxs.length →
      ∃ k0, (vfRows E R F world n n_objs idxs k).1.getD m []
        = (vfRow E R F world n (idxs.getD m 0)
            (List.range' (idxs.getD m 0 + 1) (n_objs - (idxs.getD m 0 + 1))) k0).1 := by
  intro idxs
  induction idxs with
  | nil => intro k m hm; exact absurd hm (by simp)
  | cons ih0 idxs ih =>
    intro k m hm
    simp only [vfRows]
    rcases hrow : vfRow E R F world n ih0
      (List.range' (ih0 + 1) (n_objs - (ih0 + 1))) k with ⟨row, k'⟩
    rcases hrows : vfRows E R F world n n_objs idxs k' with ⟨rows, k''⟩
    cases m with
    | zero =>
      refine ⟨k, ?_⟩
      simp only [List.getD_cons_zero]
      rw [hrow]
    | succ m' =>
      obtain ⟨k0, hk0⟩ := ih k' m' (by simp only [List.length_cons] at hm; omega)
      refine ⟨k0, ?_⟩
      simp only [List.getD_cons_succ]
      rw [hrows] at hk0
      simpa using hk0

/-- C4 (amended).  `view_factors(n)` returns the strictly-upper-triangular
matrix with one row per scene primitive and, in row `i`, one entry
`view_factor(n, i, j)` for every `j` in `(i+1)..n_objs` — every unordered
pair `i < j` is computed; primitives with degenerate parameterizations
such as cubes are not skipped (their pairs simply produce degenerate
values, which is why they should not be passed as emitter/receiver). -/
theorem c4_view_factors_matrix (E : Env) (R : ℕ → ℚ) (F : ℕ) (world : HittableList)
    (n k : ℕ) :
    ((view_factors E R F world n k).1.vfs.length = world.forms.length)
    ∧ (∀ i, i < world.forms.length →
        ((view_factors E R F world n k).1.vfs.getD i []).length
          = world.forms.length - (i + 1))
    ∧ (∀ i jj, i < world.forms.length → jj < world.forms.length - (i + 1) →
        ∃ k', ((view_factors E R F world n k).1.vfs.getD i []).getD jj 0
          = (view_factor E R F world n i (i + 1 + jj) k').1) := by
  refine ⟨?_, ?_, ?_⟩
  · simp only [view_factors]
    rcases hrows : vfRows E R F world n world.forms.length
      (List.range world.forms.length) k with ⟨rows, k'⟩
    have h2 := vfRows_length E R F world n world.forms.length
      (List.range world.forms.length) k
    rw [hrows] at h2
    simpa using h2
  · intro i hi
    simp only [view_factors]
    obtain ⟨k0, hk0⟩ := vfRows_getD E R F world n world.forms.length
      (List.range world.forms.length) k i (by simpa using hi)
    have hgd : (List.range world.forms.length).getD i 0 = i := by
      simp [List.getD_eq_getElem?_getD, List.getElem?_range, hi]
    rw [hgd] at hk0
    rcases hrows : vfRows E R F world n world.forms.length
      (List.range world.forms.length) k with ⟨rows, k'⟩
    rw [hrows] at hk0
    simp only at hk0 ⊢
    rw [hk0, vfRow_length, List.length_range']
  · intro i jj hi hjj
    simp only [view_factors]
    obtain ⟨k0, hk0⟩ := vfRows_getD E R F world n world.forms.length
      (List.range world.forms.length) k i (by simpa using hi)
    have hgd : (List.range world.forms.length).getD i 0 = i := by
      simp [List.getD_eq_getElem?_getD, List.getElem?_range, hi]
    rw [hgd] at hk0
    obtain ⟨k1, hk1⟩ := vfRow_getD E R F world n i
      (List.range' (i + 1) (world.forms.length - (i + 1))) k0 jj
      (by simpa using hjj)
    have hgd2 : (List.range' (i + 1) (world.forms.length - (i + 1))).getD jj 0 = i + 1 + jj := by
      simp [List.getD_eq_getElem?_getD, List.getElem?_range', hjj]
    rw [hgd2] at hk1
    refine ⟨k1, ?_⟩
    rcases hrows : vfRows E R F world n world.forms.length
      (List.range world.forms.length) k with ⟨rows, k'⟩
    rw [hrows] at hk0
    simp only at hk0 ⊢
    rw [hk0, hk1]

/-- Scene pairing a cube with a sphere, for the C4 counterexample. -/
def worldC4 : HittableList := ⟨[Form.Cube cube0, Form.Sphere sphere0]⟩

/-- Counterexample for C4 as stated: in a scene `[cube, sphere]` the claim
would skip the degenerate cube as an emitter, leaving its row without
entries; the code computes the pair `(0, 1)` anyway, so row `0` has one
entry. -/
theorem c4_counterexample :
    ((view_factors E0 R0 2 worldC4 0 0).1.vfs.getD 0 []).length = 1 := by
  obtain ⟨k0, hk0⟩ := vfRows_getD E0 R0 2 worldC4 0 worldC4.forms.length
    (List.range worldC4.forms.length) 0 0 (by norm_num [worldC4])
  have hgd : (List.range worldC4.forms.length).getD 0 0 = 0 := by
    simp [List.getD_eq_getElem?_getD, List.getElem?_range, worldC4]
  rw [hgd] at hk0
  simp only [view_factors]
  rcases hrows : vfRows E0 R0 2 worldC4 0 worldC4.forms.length
    (List.range worldC4.forms.length) 0 with ⟨rows, k'⟩
  rw [hrows] at hk0
  simp only at hk0 ⊢
  rw [hk0, vfRow_length, List.length_range']
  norm_num [worldC4]

/-- Witness for C4 (amended): on the two-sphere scene the matrix has two
rows, row `0` has one entry, and that entry is a `view_factor` call for
the pair `(0, 1)`. -/
theorem c4_witness :
    ((view_factors E0 R0 2 world2 0 0).1.vfs.length = world2.forms.length)
    ∧ ((view_factors E0 R0 2 world2 0 0).1.vfs.getD 0 []).length
        = world2.forms.length - 1
    ∧ ∃ k', ((view_factors E0 R0 2 world2 0 0).1.vfs.getD 0 []).getD 0 0
        = (view_factor E0 R0 2 world2 0 0 1 k').1 :=
  ⟨(c4_view_factors_matrix E0 R0 2 world2 0 0).1,
    (c4_view_factors_matrix E0 R0 2 world2 0 0).2.1 0 (by norm_num [world2]),
    (c4_view_factors_matrix E0 R0 2 world2 0 0).2.2 0 0 (by norm_num [world2])
      (by norm_num [world2])⟩

end Raytracing
